import Mathlib

/-!
Verification of the orchestration state machine of the incident-remediation
agent (src/src/main/graph.py).  The data model (messages, tool calls), the
routing edges (`should_continue_edge`, `after_approval_edge`), the human
approval node (`human_approval_node`), the high-risk tool set, and the
graph wiring are embedded as executable Lean definitions, and the spec's
claims about them are proved or refuted below.
-/

namespace DevOpsAgent

/-- Role of a chat message; mirrors the langchain message classes used by
graph.py (`SystemMessage`, human input, `AIMessage`, `ToolMessage`). -/
inductive Role where
  | system
  | user
  | assistant
  | tool
deriving DecidableEq, Repr

/-- A proposed tool call carried by an assistant message: `tc["name"]`,
`tc["args"]` (kept opaque as a string) and `tc["id"]`. -/
structure ToolCall where
  name : String
  args : String
  id : String
deriving DecidableEq, Repr

/-- A message in the agent state.  `toolCalls` models the `tool_calls`
attribute (empty unless the message is an assistant action request),
`toolCallId` models `tool_call_id` on tool-role messages, and `msgId` is
the message identity used by langgraph's `add_messages` reducer to decide
between appending and replacing. -/
structure Message where
  role : Role
  content : String
  toolCalls : List ToolCall := []
  toolCallId : Option String := none
  msgId : Nat := 0
deriving DecidableEq, Repr

/-- `AgentState` from graph.py: a message list combined with the
`add_messages` reducer. -/
structure AgentState where
  messages : List Message
deriving DecidableEq, Repr

/-- The message identities present in a history. -/
def msgIds (ms : List Message) : List Nat :=
  ms.map (fun m => m.msgId)

/-- One step of langgraph's `add_messages` reducer: a new message whose id
matches an existing one replaces it in place, otherwise it is appended. -/
def upsertMessage (ms : List Message) (m : Message) : List Message :=
  if ms.any (fun x => x.msgId = m.msgId) then
    ms.map (fun x => if x.msgId = m.msgId then m else x)
  else
    ms ++ [m]

/-- langgraph's `add_messages` reducer on a node's returned update, as
declared by `AgentState` (`Annotated[List[BaseMessage], add_messages]`). -/
def addMessages (ms update : List Message) : List Message :=
  update.foldl upsertMessage ms

/-- Applying a node's `{"messages": [...]}` update to the state. -/
def applyUpdate (s : AgentState) (update : List Message) : AgentState :=
  ⟨addMessages s.messages update⟩

/-- `HIGH_RISK_TOOLS` from graph.py. -/
def HIGH_RISK_TOOLS : List String :=
  [ "merge_pull_request", "powershell_tofu_apply", "scale_k8s_deployment",
    "delete_k8s_pod", "jenkins_rollback", "jenkins_emergency_deploy",
    "create_or_update_file" ]

/-- Boolean substring test, modelling Python's `needle in hay`. -/
def strContains (hay needle : String) : Bool :=
  decide (needle.toList <:+: hay.toList)

/-- `should_continue_edge` from graph.py: routes after the agent node.
`none` models the IndexError Python would raise on an empty history. -/
def should_continue_edge (s : AgentState) : Option String :=
  s.messages.getLast?.map fun last =>
    if last.toolCalls.isEmpty then "end"
    else if last.toolCalls.any (fun tc => HIGH_RISK_TOOLS.contains tc.name) then
      "human_approval"
    else "action"

/-- The content of the rejection `ToolMessage` built in `human_approval_node`. -/
def rejectionContent : String :=
  "Human has rejected the planned tool call. Please reconsider your plan or ask for more details."

/-- The rejection `ToolMessage`: its `tool_call_id` is the id of the FIRST
pending call (`last_message.tool_calls[0]["id"]`); `freshId` is the message
id langgraph assigns on append. -/
def rejectionMessage (callId : String) (freshId : Nat) : Message :=
  { role := Role.tool
    content := rejectionContent
    toolCalls := []
    toolCallId := some callId
    msgId := freshId }

/-- Outcome of the approval node: whether `interrupt()` was reached
(suspending for the approver) and the returned message update. -/
structure ApprovalOutcome where
  prompted : Bool
  update : List Message
deriving DecidableEq, Repr

/-- `human_approval_node` from graph.py.  `decision` is the value the
`interrupt()` call returns on resume (the `ApprovalDecision`), `freshId`
the message id assigned to a newly created message.  With no pending tool
calls the node returns an empty update before reaching `interrupt()`;
otherwise it suspends, and on rejection returns one rejection message. -/
def human_approval_node (decision : Bool) (freshId : Nat) (s : AgentState) :
    Option ApprovalOutcome :=
  s.messages.getLast?.map fun last =>
    match last.toolCalls with
    | [] => ⟨false, []⟩
    | tc :: _ =>
      if decision then ⟨true, []⟩
      else ⟨true, [rejectionMessage tc.id freshId]⟩

/-- `after_approval_edge` from graph.py: routes after the approval node by
inspecting only the last message (`isinstance(last_message, ToolMessage)
and "Human has rejected" in last_message.content`). -/
def after_approval_edge (s : AgentState) : Option String :=
  s.messages.getLast?.map fun last =>
    if last.role == Role.tool && strContains last.content "Human has rejected" then
      "agent"
    else "action"

/-- The compiled graph wiring from graph.py section 6: nodes, entry point,
the conditional edge maps and the static `action -> agent` edge. -/
structure GraphWiring where
  entryPoint : String
  nodes : List String
  agentConditionalMap : List (String × String)
  staticEdges : List (String × String)
  approvalConditionalMap : List (String × String)
deriving DecidableEq, Repr

/-- The assembled workflow of graph.py. -/
def workflow : GraphWiring :=
  { entryPoint := "agent"
    nodes := ["agent", "action", "human_approval"]
    agentConditionalMap :=
      [("action", "action"), ("human_approval", "human_approval"), ("end", "END")]
    staticEdges := [("action", "agent")]
    approvalConditionalMap := [("action", "action"), ("agent", "agent")] }

/-- Modelled from the spec: the tool-execution node is langgraph's
`ToolNode(all_tools)` (graph.py line 119), whose implementation is library
code absent from src/.  Per the spec (sections 4.1 and 4.3): it invokes
each requested call's Capability Provider, producing one tool-role result
message per call in batch order with the matching `call_id`; a raised
exception is captured as that message's content rather than propagating. -/
def tool_node (invoke : ToolCall → Except String String)
    (calls : List ToolCall) : List Message :=
  calls.map fun tc =>
    { role := Role.tool
      content := match invoke tc with | Except.ok r => r | Except.error e => e
      toolCalls := []
      toolCallId := some tc.id
      msgId := 0 }

/-- Modelled from the spec: `MemorySaver` (react_agent.py line 457,
graph.py's checkpointing) is langgraph library code absent from src/.
Per the spec's Checkpoint Store contract (section 4.5): each save appends
a new version keyed by `thread_id`; only the latest version is queryable
by default.  Versions are kept newest first. -/
structure MemorySaver where
  checkpoints : List (String × AgentState)
deriving DecidableEq, Repr

/-- Modelled from the spec: `save(thread_id, SessionState) -> Checkpoint`,
append-style (a new version supersedes the old, nothing is mutated). -/
def MemorySaver.save (cs : MemorySaver) (threadId : String) (s : AgentState) :
    MemorySaver :=
  ⟨(threadId, s) :: cs.checkpoints⟩

/-- Modelled from the spec: `load(thread_id) -> latest SessionState or
NotFound` (`none`). -/
def MemorySaver.load (cs : MemorySaver) (threadId : String) : Option AgentState :=
  (cs.checkpoints.find? (fun p => p.1 == threadId)).map (fun p => p.2)

/-- One observable transition of the compiled graph, at the level of the
state updates the three nodes return.  Every node communicates with the
state only through `add_messages` on its returned update; newly created
messages carry fresh ids (langchain and langgraph assign fresh UUIDs to
messages produced by the model node, the tool node and the approval
node), which the side conditions record. -/
inductive Step : AgentState → AgentState → Prop where
  | model (s : AgentState) (m : Message)
      (hfresh : m.msgId ∉ msgIds s.messages) :
      Step s (applyUpdate s [m])
  | tools (s : AgentState) (results : List Message)
      (hfresh : ∀ r ∈ results, r.msgId ∉ msgIds s.messages) :
      Step s (applyUpdate s results)
  | approval (s : AgentState) (decision : Bool) (freshId : Nat)
      (out : ApprovalOutcome)
      (hnode : human_approval_node decision freshId s = some out)
      (hfresh : ∀ r ∈ out.update, r.msgId ∉ msgIds s.messages) :
      Step s (applyUpdate s out.update)

/-! Concrete sample data used by the witness theorems, taken from the
spec's scenarios. -/

/-- Scenario A: the agent proposes only the standard tool `list_k8s_pods`. -/
def msgA : Message :=
  { role := Role.assistant
    content := ""
    toolCalls := [⟨"list_k8s_pods", "namespace=prod", "call_a1"⟩]
    msgId := 1 }

/-- State for scenario A. -/
def stateA : AgentState := ⟨[msgA]⟩

/-- Scenario B: the agent proposes the single high-risk tool
`scale_k8s_deployment`. -/
def msgB : Message :=
  { role := Role.assistant
    content := ""
    toolCalls := [⟨"scale_k8s_deployment", "replicas=3", "call_b1"⟩]
    msgId := 2 }

/-- State for scenario B. -/
def stateB : AgentState := ⟨[msgB]⟩

/-- Scenario C: a mixed batch of a standard call and a high-risk call. -/
def msgC : Message :=
  { role := Role.assistant
    content := ""
    toolCalls :=
      [⟨"check_service_health", "service=checkout", "call_c1"⟩,
       ⟨"merge_pull_request", "pr=42", "call_c2"⟩]
    msgId := 3 }

/-- State for scenario C. -/
def stateC : AgentState := ⟨[msgC]⟩

/-- An assistant message that proposes no tool call at all. -/
def msgPlain : Message :=
  { role := Role.assistant, content := "All services are healthy.", msgId := 4 }

/-- State whose last message carries no tool-call request. -/
def statePlain : AgentState := ⟨[msgPlain]⟩

/-! General lemmas about the `add_messages` reducer. -/

/-- A message with a fresh id is appended, never merged. -/
theorem upsertMessage_of_fresh (ms : List Message) (m : Message)
    (h : m.msgId ∉ msgIds ms) : upsertMessage ms m = ms ++ [m] := by
  unfold upsertMessage
  rw [if_neg]
  intro hany
  obtain ⟨x, hx, hid⟩ := List.any_eq_true.mp hany
  exact h (by
    have : x.msgId = m.msgId := by simpa using hid
    exact this ▸ List.mem_map.mpr ⟨x, hx, rfl⟩)

/-- Merging one fresh-id message preserves any prefix whose ids it avoids. -/
theorem prefix_upsertMessage (old ms : List Message) (m : Message)
    (hfresh : m.msgId ∉ msgIds old) (hpre : old <+: ms) :
    old <+: upsertMessage ms m := by
  unfold upsertMessage
  split
  · obtain ⟨t, rfl⟩ := hpre
    rw [List.map_append]
    have hold : old.map (fun x => if x.msgId = m.msgId then m else x) = old := by
      have := List.map_congr_left (l := old)
        (f := fun x => if x.msgId = m.msgId then m else x) (g := fun x => x)
        (fun x hx => by
          show (if x.msgId = m.msgId then m else x) = x
          rw [if_neg]
          intro hid
          exact hfresh (hid ▸ List.mem_map.mpr ⟨x, hx, rfl⟩))
      simpa using this
    rw [hold]
    exact List.prefix_append old _
  · exact hpre.trans (List.prefix_append ms [m])

/-- Folding `add_messages` over fresh-id updates preserves any prefix
whose ids the update avoids. -/
theorem prefix_addMessages (old : List Message) (update : List Message) :
    ∀ ms, (∀ r ∈ update, r.msgId ∉ msgIds old) → old <+: ms →
      old <+: addMessages ms update := by
  induction update with
  | nil => exact fun ms _ hpre => hpre
  | cons r rest ih =>
    intro ms hfresh hpre
    have hstep : addMessages ms (r :: rest) = addMessages (upsertMessage ms r) rest := rfl
    rw [hstep]
    exact ih _ (fun x hx => hfresh x (List.mem_cons_of_mem _ hx))
      (prefix_upsertMessage old ms r (hfresh r (List.mem_cons_self r rest)) hpre)

/-- Claim C6: every transition of the state machine (reasoning, approval,
rejection, tool execution) only appends messages — after any step, the
previous message history is a prefix of the new one; no message is
mutated, removed or reordered. -/
theorem step_append_only (s s2 : AgentState) (h : Step s s2) :
    s.messages <+: s2.messages := by
  cases h with
  | model m hfresh =>
    exact prefix_addMessages s.messages [m] s.messages
      (by simpa using hfresh) List.prefix_rfl
  | tools results hfresh =>
    exact prefix_addMessages s.messages results s.messages hfresh List.prefix_rfl
  | approval decision freshId out hnode hfresh =>
    exact prefix_addMessages s.messages out.update s.messages hfresh List.prefix_rfl

/-- Witness for C6: a concrete reasoning step on scenario A's state only
appends the new assistant message. -/
theorem step_append_only_witness :
    stateA.messages <+: (applyUpdate stateA [msgB]).messages :=
  step_append_only stateA (applyUpdate stateA [msgB])
    (Step.model stateA msgB (by decide))

/-- Claim C1: whenever the last assistant message proposes at least one
tool call whose name is in the configured high-risk set (mixed batches
included), `should_continue_edge` routes to the human-approval node and
never directly to the tool-execution node. -/
theorem risk_gating_totality (s : AgentState) (last : Message)
    (hlast : s.messages.getLast? = some last)
    (hrisk : ∃ tc ∈ last.toolCalls, tc.name ∈ HIGH_RISK_TOOLS) :
    should_continue_edge s = some "human_approval" ∧
    should_continue_edge s ≠ some "action" := by
  obtain ⟨tc, htc, hname⟩ := hrisk
  have hnil : ¬ last.toolCalls = [] := List.ne_nil_of_mem htc
  have hex : ∃ x ∈ last.toolCalls, x.name ∈ HIGH_RISK_TOOLS := ⟨tc, htc, hname⟩
  refine ⟨?_, ?_⟩ <;> simp [should_continue_edge, hlast, hnil, hex]

/-- Witness for C1: scenario C's mixed batch (one standard call, one
high-risk call) is gated as a whole. -/
theorem risk_gating_totality_witness :
    should_continue_edge stateC = some "human_approval" ∧
    should_continue_edge stateC ≠ some "action" :=
  risk_gating_totality stateC msgC rfl (by decide)

/-- Claim C5: whenever the last assistant message proposes a non-empty
batch with no high-risk tool name, `should_continue_edge` routes directly
to the tool-execution node and never to the human-approval node. -/
theorem standard_batch_direct (s : AgentState) (last : Message)
    (hlast : s.messages.getLast? = some last)
    (hne : last.toolCalls ≠ [])
    (hstd : ∀ tc ∈ last.toolCalls, tc.name ∉ HIGH_RISK_TOOLS) :
    should_continue_edge s = some "action" ∧
    should_continue_edge s ≠ some "human_approval" := by
  have hnex : ¬ ∃ x ∈ last.toolCalls, x.name ∈ HIGH_RISK_TOOLS := by
    intro h
    obtain ⟨x, hx, hmem⟩ := h
    exact hstd x hx hmem
  refine ⟨?_, ?_⟩ <;> simp [should_continue_edge, hlast, hne, hnex]

/-- Witness for C5: scenario A's purely standard batch executes directly. -/
theorem standard_batch_direct_witness :
    should_continue_edge stateA = some "action" ∧
    should_continue_edge stateA ≠ some "human_approval" :=
  standard_batch_direct stateA msgA rfl (by decide) (by decide)

/-- Claim C10: entering the approval node while the last message carries
no tool-call request yields an empty update without reaching the
`interrupt()` suspension and without raising: the malformed routing case
is absorbed silently, whatever decision would later arrive. -/
theorem approval_node_silent_on_no_calls (decision : Bool) (freshId : Nat)
    (s : AgentState) (last : Message)
    (hlast : s.messages.getLast? = some last)
    (hnone : last.toolCalls = []) :
    human_approval_node decision freshId s = some ⟨false, []⟩ := by
  simp [human_approval_node, hlast, hnone]

/-- Witness for C10: the approval node absorbs a terminal assistant
message with no tool calls. -/
theorem approval_node_silent_witness :
    human_approval_node true 9 statePlain = some ⟨false, []⟩ :=
  approval_node_silent_on_no_calls true 9 statePlain msgPlain rfl rfl

/-- The rejection message is marked by the substring the post-approval
edge tests for. -/
theorem rejectionContent_marked :
    strContains rejectionContent "Human has rejected" = true := by decide

/-- Claim C2 counterexample: rejecting the pending batch of scenario C,
which holds two tool calls, appends ONE rejection message, not two — the
node builds a single `ToolMessage` from `tool_calls[0]` regardless of the
batch size. -/
theorem rejection_count_counterexample :
    (human_approval_node false 7 stateC).map (fun out => out.update.length) = some 1 ∧
    stateC.messages.getLast?.map (fun m => m.toolCalls.length) = some 2 ∧
    (1 : Nat) ≠ 2 := by decide

/-- Claim C2 (amended): rejecting a pending batch appends exactly ONE
tool-role rejection message, carrying the id of the FIRST pending call,
whatever the batch size, and the post-approval edge then routes back to
the reasoning node. -/
theorem rejection_appends_one (s : AgentState) (last : Message)
    (tc : ToolCall) (rest : List ToolCall) (freshId : Nat)
    (hlast : s.messages.getLast? = some last)
    (hcalls : last.toolCalls = tc :: rest)
    (hfresh : freshId ∉ msgIds s.messages) :
    human_approval_node false freshId s = some ⟨true, [rejectionMessage tc.id freshId]⟩ ∧
    after_approval_edge (applyUpdate s [rejectionMessage tc.id freshId]) = some "agent" := by
  have hupd : applyUpdate s [rejectionMessage tc.id freshId] =
      ⟨s.messages ++ [rejectionMessage tc.id freshId]⟩ :=
    congrArg AgentState.mk
      (upsertMessage_of_fresh s.messages (rejectionMessage tc.id freshId) hfresh)
  refine ⟨?_, ?_⟩
  · simp [human_approval_node, hlast, hcalls]
  · rw [hupd]
    simp [after_approval_edge, List.getLast?_concat, rejectionMessage,
      rejectionContent_marked]

/-- Witness for C2 (amended): scenario B's single-call batch, rejected. -/
theorem rejection_appends_one_witness :
    human_approval_node false 7 stateB = some ⟨true, [rejectionMessage "call_b1" 7]⟩ ∧
    after_approval_edge (applyUpdate stateB [rejectionMessage "call_b1" 7]) = some "agent" :=
  rejection_appends_one stateB msgB ⟨"scale_k8s_deployment", "replicas=3", "call_b1"⟩ [] 7
    rfl rfl (by decide)

/-- Claim C3: rejection is atomic — on `approved = false` the approval
node's update consists solely of rejection markers (no genuine tool
result is produced for any call of the batch), and the post-approval edge
does not route to the tool-execution node, so no Capability Provider is
invoked. -/
theorem rejection_atomicity (s : AgentState) (last : Message)
    (tc : ToolCall) (rest : List ToolCall) (freshId : Nat)
    (hlast : s.messages.getLast? = some last)
    (hcalls : last.toolCalls = tc :: rest)
    (hfresh : freshId ∉ msgIds s.messages) :
    (human_approval_node false freshId s).map
        (fun out => out.update.all
          (fun m => m.role == Role.tool && m.content == rejectionContent)) = some true ∧
    after_approval_edge (applyUpdate s [rejectionMessage tc.id freshId]) ≠ some "action" := by
  have hupd : applyUpdate s [rejectionMessage tc.id freshId] =
      ⟨s.messages ++ [rejectionMessage tc.id freshId]⟩ :=
    congrArg AgentState.mk
      (upsertMessage_of_fresh s.messages (rejectionMessage tc.id freshId) hfresh)
  refine ⟨?_, ?_⟩
  · simp [human_approval_node, hlast, hcalls, rejectionMessage]
  · rw [hupd]
    simp [after_approval_edge, List.getLast?_concat, rejectionMessage,
      rejectionContent_marked]

/-- Witness for C3: scenario C's mixed batch, rejected: only rejection
markers are appended and the tool node is not entered. -/
theorem rejection_atomicity_witness :
    (human_approval_node false 7 stateC).map
        (fun out => out.update.all
          (fun m => m.role == Role.tool && m.content == rejectionContent)) = some true ∧
    after_approval_edge (applyUpdate stateC [rejectionMessage "call_c1" 7]) ≠ some "action" :=
  rejection_atomicity stateC msgC ⟨"check_service_health", "service=checkout", "call_c1"⟩
    [⟨"merge_pull_request", "pr=42", "call_c2"⟩] 7 rfl rfl (by decide)

/-- Claim C4: approving a pending batch changes nothing but the phase —
the node returns an empty update after the suspension, applying that
update leaves the state identical (same batch, same history), and the
post-approval edge routes to the tool-execution node. -/
theorem approval_frame (s : AgentState) (last : Message) (freshId : Nat)
    (hlast : s.messages.getLast? = some last)
    (hne : last.toolCalls ≠ [])
    (hrole : last.role = Role.assistant) :
    human_approval_node true freshId s = some ⟨true, []⟩ ∧
    applyUpdate s [] = s ∧
    after_approval_edge s = some "action" := by
  obtain ⟨tc, rest, hcalls⟩ : ∃ tc rest, last.toolCalls = tc :: rest := by
    cases hc : last.toolCalls with
    | nil => exact absurd hc hne
    | cons a l => exact ⟨a, l, rfl⟩
  refine ⟨?_, rfl, ?_⟩
  · simp [human_approval_node, hlast, hcalls]
  · simp [after_approval_edge, hlast, hrole]

/-- Witness for C4: scenario B's high-risk batch, approved: state
untouched, routing proceeds to execution. -/
theorem approval_frame_witness :
    human_approval_node true 9 stateB = some ⟨true, []⟩ ∧
    applyUpdate stateB [] = stateB ∧
    after_approval_edge stateB = some "action" :=
  approval_frame stateB msgB 9 rfl (by decide) rfl

/-- Claim C9: the post-approval routing decision is exactly the content
test on the last message — it returns "agent" if and only if the last
message is a tool-role message whose content contains the substring
"Human has rejected", and "action" in every other case; the
`ApprovalDecision` itself is not consulted. -/
theorem after_approval_routing (s : AgentState) (last : Message)
    (hlast : s.messages.getLast? = some last) :
    (after_approval_edge s = some "agent" ↔
      (last.role = Role.tool ∧ strContains last.content "Human has rejected" = true)) ∧
    ((¬ (last.role = Role.tool ∧ strContains last.content "Human has rejected" = true)) →
      after_approval_edge s = some "action") := by
  by_cases hcond : last.role = Role.tool ∧ strContains last.content "Human has rejected" = true
  · have hag : after_approval_edge s = some "agent" := by
      simp [after_approval_edge, hlast, hcond.1, hcond.2]
    exact ⟨⟨fun _ => hcond, fun _ => hag⟩, fun hc => absurd hcond hc⟩
  · have hb : ((last.role == Role.tool) &&
        strContains last.content "Human has rejected") = false := by
      rw [Bool.eq_false_iff]
      intro h
      rw [Bool.and_eq_true, beq_iff_eq] at h
      exact hcond h
    have hact : after_approval_edge s = some "action" := by
      simp only [after_approval_edge, hlast, Option.map_some']
      rw [if_neg (by rw [hb]; exact Bool.false_ne_true)]
    refine ⟨⟨fun hagent => ?_, fun h => absurd h hcond⟩, fun _ => hact⟩
    rw [hact] at hagent
    exact absurd hagent (by decide)

/-- The state reached after scenario B's rejection. -/
def stateRejB : AgentState := applyUpdate stateB [rejectionMessage "call_b1" 7]

/-- Witness for C9: on the post-rejection state of scenario B the edge
routes to "agent", and the content test is exactly what decides it. -/
theorem after_approval_routing_witness :
    (after_approval_edge stateRejB = some "agent" ↔
      ((rejectionMessage "call_b1" 7).role = Role.tool ∧
        strContains (rejectionMessage "call_b1" 7).content "Human has rejected" = true)) ∧
    ((¬ ((rejectionMessage "call_b1" 7).role = Role.tool ∧
        strContains (rejectionMessage "call_b1" 7).content "Human has rejected" = true)) →
      after_approval_edge stateRejB = some "action") :=
  after_approval_routing stateRejB (rejectionMessage "call_b1" 7) (by decide)

/-- Claim C7: saving a checkpoint for a thread and loading the latest
checkpoint for the same thread returns exactly the saved session state
(save followed by load is a round-trip identity). -/
theorem checkpoint_roundtrip (cs : MemorySaver) (threadId : String) (s : AgentState) :
    (cs.save threadId s).load threadId = some s := by
  have hpos : (fun p => p.1 == threadId) ((threadId, s) : String × AgentState) = true := by
    simp
  simp [MemorySaver.save, MemorySaver.load, List.find?_cons_of_pos _ hpos]

/-- A sample capability dispatcher for the witness of C8: the GitHub
provider behind `merge_pull_request` raises, every other provider
succeeds. -/
def sampleInvoke : ToolCall → Except String String := fun tc =>
  if tc.name == "merge_pull_request" then
    Except.error "GitHub API error: merge conflict"
  else Except.ok "ok"

/-- Claim C8: when a Capability Provider raises on one call of a batch,
the failure becomes the content of that call's tool-role result message,
every call of the batch still yields exactly one result message carrying
its call id in batch order, and the static `action -> agent` edge returns
the machine to reasoning rather than failing the orchestrator. -/
theorem tool_failure_captured (invoke : ToolCall → Except String String)
    (calls : List ToolCall) (i : Nat) (h : i < calls.length) (e : String)
    (herr : invoke calls[i] = Except.error e) :
    (tool_node invoke calls).length = calls.length ∧
    (tool_node invoke calls)[i]? = some
      { role := Role.tool, content := e, toolCalls := [],
        toolCallId := some calls[i].id, msgId := 0 } ∧
    (tool_node invoke calls).map (fun m => m.toolCallId) =
      calls.map (fun tc => some tc.id) ∧
    ("action", "agent") ∈ workflow.staticEdges := by
  refine ⟨by simp [tool_node], ?_, ?_, by simp [workflow]⟩
  · simp [tool_node, List.getElem?_map, List.getElem?_eq_getElem h, herr]
  · rw [tool_node, List.map_map]
    exact List.map_congr_left fun tc _ => rfl

/-- Witness for C8: scenario D on scenario C's batch — the second call's
provider throws, its failure is recorded as content, the first call still
completes, and routing continues to the agent. -/
theorem tool_failure_captured_witness :
    (tool_node sampleInvoke msgC.toolCalls).length = msgC.toolCalls.length ∧
    (tool_node sampleInvoke msgC.toolCalls)[1]? = some
      { role := Role.tool, content := "GitHub API error: merge conflict",
        toolCalls := [], toolCallId := some "call_c2", msgId := 0 } ∧
    (tool_node sampleInvoke msgC.toolCalls).map (fun m => m.toolCallId) =
      msgC.toolCalls.map (fun tc => some tc.id) ∧
    ("action", "agent") ∈ workflow.staticEdges :=
  tool_failure_captured sampleInvoke msgC.toolCalls 1 (by decide)
    "GitHub API error: merge conflict" rfl

end DevOpsAgent
